import Mathlib

/-!
# Verification of the recipe API's token registry and storage backends

A shallow embedding of the repository's authentication service
(`auth/auth_service.go`), file-backed recipe storage
(`storage/json_storage.go`), relational recipe storage
(`storage/postgres_storage.go`), the recipe model (`models/recipe.go`)
and the HTTP handler's create/update paths (`handlers/recipe_handler.go`),
together with theorems settling the specification's claims about them.

Conventions of the embedding:
* wall-clock instants are integers (nanoseconds, as in Go's `time.Time`);
  each call to `time.Now()` in the source becomes an explicit instant
  parameter, and consecutive calls may return distinct instants;
* the Go `map[string]*TokenInfo` is a partial function
  `String → Option TokenInfo`;
* fallible I/O (file read/write, SQL execution) is driven by explicit
  outcome parameters, so every branch of the source is reachable.
-/

/-- `models.Recipe` (`models/recipe.go`).  `CreatedBy`/`UpdatedBy` are the
nullable identity references present in the relational variant of the model;
the JSON-file variant leaves them `none`. -/
structure Recipe where
  ID : String
  Name : String
  Ingredients : List String
  Instructions : String
  CookingTime : String
  Servings : Int
  Category : String
  CreatedAt : Int
  UpdatedAt : Int
  CreatedBy : Option Int := none
  UpdatedBy : Option Int := none
deriving DecidableEq, Repr

/-- `Recipe.Validate` (`models/recipe.go` lines 22-42): returns the first
failing requirement's error message, or `none` when the recipe is valid. -/
def Recipe.Validate (r : Recipe) : Option String :=
  if r.Name = "" then some "recipe name is required"
  else if r.Ingredients.length = 0 then some "at least one ingredient is required"
  else if r.Instructions = "" then some "instructions are required"
  else if r.CookingTime = "" then some "cooking time is required"
  else if r.Servings ≤ 0 then some "servings must be greater than 0"
  else if r.Category = "" then some "category is required"
  else none

/-- `auth.TokenInfo` (`auth/auth_service.go` lines 24-30). -/
structure TokenInfo where
  Username : String
  UserID : Int
  CreatedAt : Int
  ExpiresAt : Int
deriving DecidableEq, Repr

/-- The `activeTokens map[string]*TokenInfo` field of `AuthService`,
as a partial function from token strings to their records. -/
abbrev Registry := String → Option TokenInfo

/-- A fresh `AuthService`'s token map (`make(map[string]*TokenInfo)`). -/
def emptyRegistry : Registry := fun _ => none

/-- `time.Hour` in nanoseconds: the duration
`time.Duration(tokenExpiryHours) * time.Hour` is `tokenExpiryHours *
nanosPerHour`. -/
def nanosPerHour : Int := 3600000000000

/-- `AuthService.GenerateToken` (`auth/auth_service.go` lines 79-103):
records `{username, userID, CreatedAt = now, ExpiresAt = now + TTL}` under
the freshly generated `token` string.  The random token bytes are an input
here; their generation cannot fail in the model. -/
def GenerateToken (m : Registry) (token username : String) (userID : Int)
    (now tokenExpiryHours : Int) : Registry :=
  let expiresAt := now + tokenExpiryHours * nanosPerHour
  fun t => if t = token then some ⟨username, userID, now, expiresAt⟩ else m t

/-- `AuthService.removeToken` (`auth/auth_service.go` lines 138-143):
`delete(as.activeTokens, token)`. -/
def removeToken (m : Registry) (token : String) : Registry :=
  fun t => if t = token then none else m t

/-- `AuthService.ValidateToken` (`auth/auth_service.go` lines 106-123).
Returns the token's record (paired with the registry after the
best-effort removal of an expired entry that the source spawns via
`go as.removeToken(token)`).  `time.Now().After(expiresAt)` is the strict
comparison `expiresAt < now`. -/
def ValidateToken (m : Registry) (token : String) (now : Int) :
    Option TokenInfo × Registry :=
  match m token with
  | none => (none, m)
  | some tokenInfo =>
    if tokenInfo.ExpiresAt < now then (none, removeToken m token)
    else (some tokenInfo, m)

/-- `AuthService.InvalidateToken` (`auth/auth_service.go` lines 126-136):
deletes the entry if present and reports whether it existed. -/
def InvalidateToken (m : Registry) (token : String) : Bool × Registry :=
  match m token with
  | some _ => (true, removeToken m token)
  | none => (false, m)

/-- One iteration of the `for token, tokenInfo := range as.activeTokens`
loop of `CleanupExpiredTokens`: delete the entry when `now.After(ExpiresAt)`. -/
def deleteExpiredStep (now : Int) (m : Registry) (e : String × TokenInfo) :
    Registry :=
  if e.2.ExpiresAt < now then removeToken m e.1 else m

/-- `AuthService.CleanupExpiredTokens` (`auth/auth_service.go` lines
146-156): iterate over the map's entries (given as the list `entries`)
and delete every expired one. -/
def CleanupExpiredTokens (entries : List (String × TokenInfo)) (now : Int)
    (m : Registry) : Registry :=
  entries.foldl (deleteExpiredStep now) m

/-- C1 (counterexample): a token issued at instant `0` with TTL 24 hours
still validates — returning its bound identity — at the exact instant
`creation + TTL`, because `time.Now().After(expiresAt)` is a strict
comparison.  The claim says validation must fail at that instant. -/
theorem c1_counterexample :
    (ValidateToken (GenerateToken emptyRegistry "tok" "chef" 1 0 24) "tok"
      (0 + 24 * nanosPerHour)).1 = some ⟨"chef", 1, 0, 0 + 24 * nanosPerHour⟩ := by
  decide

/-- C1 (amended): for a token issued at instant `c` with TTL `T` hours,
`ValidateToken` returns the bound identity with ok at any instant at or
before `c + T`, and returns not-ok at any instant strictly after `c + T`. -/
theorem c1_amended (m : Registry) (tok username : String) (userID : Int)
    (c T now : Int) :
    (now ≤ c + T * nanosPerHour →
      (ValidateToken (GenerateToken m tok username userID c T) tok now).1 =
        some ⟨username, userID, c, c + T * nanosPerHour⟩) ∧
    (c + T * nanosPerHour < now →
      (ValidateToken (GenerateToken m tok username userID c T) tok now).1 =
        none) := by
  constructor
  · intro h
    simp [ValidateToken, GenerateToken, not_lt.mpr h]
  · intro h
    simp [ValidateToken, GenerateToken, h]

/-- C1 amended, witnessed at concrete inputs: validation succeeds one hour
after issuance and fails one nanosecond after the 24-hour expiry. -/
theorem c1_witness :
    (ValidateToken (GenerateToken emptyRegistry "tok" "chef" 1 0 24) "tok"
      nanosPerHour).1 = some ⟨"chef", 1, 0, 0 + 24 * nanosPerHour⟩ ∧
    (ValidateToken (GenerateToken emptyRegistry "tok" "chef" 1 0 24) "tok"
      (0 + 24 * nanosPerHour + 1)).1 = none :=
  ⟨(c1_amended emptyRegistry "tok" "chef" 1 0 24 nanosPerHour).1 (by decide),
   (c1_amended emptyRegistry "tok" "chef" 1 0 24
      (0 + 24 * nanosPerHour + 1)).2 (by decide)⟩

/-- C2: revoking an absent (never-issued or already-revoked) token returns
`false` and leaves the registry unchanged; after any completed revocation
of `tok`, validating `tok` fails at every instant. -/
theorem c2_revocation (m : Registry) (tok : String) :
    (m tok = none → InvalidateToken m tok = (false, m)) ∧
    (∀ now : Int, (ValidateToken (InvalidateToken m tok).2 tok now).1 = none) := by
  constructor
  · intro h
    simp [InvalidateToken, h]
  · intro now
    cases h : m tok with
    | none => simp [InvalidateToken, ValidateToken, h]
    | some info => simp [InvalidateToken, ValidateToken, removeToken, h]

/-- C2 witnessed: revoking a token that was never issued returns `false`
and leaves the empty registry unchanged, and validation of a revoked token
fails. -/
theorem c2_witness :
    InvalidateToken emptyRegistry "tok" = (false, emptyRegistry) ∧
    (ValidateToken (InvalidateToken emptyRegistry "tok").2 "tok" 7).1 = none :=
  ⟨(c2_revocation emptyRegistry "tok").1 rfl,
   (c2_revocation emptyRegistry "tok").2 7⟩

/-- Cleanup helper: a key none of whose entries in the list are expired is
left bound to whatever it was bound to before the loop. -/
theorem cleanup_keeps_unexpired_aux (now : Int) :
    ∀ (entries : List (String × TokenInfo)) (m : Registry) (t : String),
      (∀ i : TokenInfo, (t, i) ∈ entries → ¬ i.ExpiresAt < now) →
      CleanupExpiredTokens entries now m t = m t := by
  intro entries
  induction entries with
  | nil => intro m t _; rfl
  | cons e es ih =>
    intro m t h
    show CleanupExpiredTokens es now (deleteExpiredStep now m e) t = m t
    rw [ih _ t (fun i hi => h i (List.mem_cons_of_mem e hi))]
    rcases e with ⟨s, j⟩
    by_cases hst : s = t
    · subst hst
      have := h j (List.mem_cons_self _ _)
      simp [deleteExpiredStep, this]
    · by_cases hje : j.ExpiresAt < now
      · simp [deleteExpiredStep, hje, removeToken, Ne.symm hst]
      · simp [deleteExpiredStep, hje]

/-- Cleanup helper: after the range loop, a key with some expired entry in
the entry list maps to `none`. -/
theorem cleanup_removes_expired (now : Int) :
    ∀ (entries : List (String × TokenInfo)) (m : Registry) (t : String)
      (i : TokenInfo), (t, i) ∈ entries → i.ExpiresAt < now →
      CleanupExpiredTokens entries now m t = none := by
  intro entries
  induction entries with
  | nil => intro m t i h; cases h
  | cons e es ih =>
    intro m t i hmem hexp
    rcases List.mem_cons.mp hmem with he | hes
    · subst he
      by_cases hlater : ∃ j : TokenInfo, (t, j) ∈ es ∧ j.ExpiresAt < now
      · rcases hlater with ⟨j, hj, hje⟩
        exact ih _ t j hj hje
      · have : CleanupExpiredTokens es now (deleteExpiredStep now m (t, i)) t =
            deleteExpiredStep now m (t, i) t := by
          apply cleanup_keeps_unexpired_aux
          intro j hj hje
          exact hlater ⟨j, hj, hje⟩
        show CleanupExpiredTokens es now (deleteExpiredStep now m (t, i)) t = none
        rw [this]
        simp [deleteExpiredStep, hexp, removeToken]
    · exact ih _ t i hes hexp

/-- C8: after `CleanupExpiredTokens` runs at instant `now` over the map's
entry list, every previously-held entry whose expiry has passed is gone,
every previously-held unexpired entry is still present with its binding
unchanged, and no new entry appears. -/
theorem c8_cleanup (entries : List (String × TokenInfo)) (m : Registry)
    (now : Int) (henum : ∀ t i, m t = some i ↔ (t, i) ∈ entries) (t : String) :
    (∀ i, m t = some i → i.ExpiresAt < now →
      CleanupExpiredTokens entries now m t = none) ∧
    (∀ i, m t = some i → ¬ i.ExpiresAt < now →
      CleanupExpiredTokens entries now m t = some i) ∧
    (m t = none → CleanupExpiredTokens entries now m t = none) := by
  refine ⟨fun i hi hexp => ?_, fun i hi hexp => ?_, fun hnone => ?_⟩
  · exact cleanup_removes_expired now entries m t i ((henum t i).mp hi) hexp
  · have hkeep : ∀ j : TokenInfo, (t, j) ∈ entries → ¬ j.ExpiresAt < now := by
      intro j hj
      have : m t = some j := (henum t j).mpr hj
      rw [hi] at this
      cases this
      exact hexp
    rw [cleanup_keeps_unexpired_aux now entries m t hkeep, hi]
  · have hkeep : ∀ j : TokenInfo, (t, j) ∈ entries → ¬ j.ExpiresAt < now := by
      intro j hj
      have : m t = some j := (henum t j).mpr hj
      rw [hnone] at this
      cases this
    rw [cleanup_keeps_unexpired_aux now entries m t hkeep, hnone]

/-- C8 witnessed on a two-token registry at instant 99: the token expiring
at 10 is purged, the one expiring at 200 keeps its binding. -/
theorem c8_witness :
    CleanupExpiredTokens [("a", ⟨"chef", 1, 0, 10⟩), ("b", ⟨"admin", 2, 0, 200⟩)]
      99 (fun t => if t = "a" then some ⟨"chef", 1, 0, 10⟩
                   else if t = "b" then some ⟨"admin", 2, 0, 200⟩ else none)
      "a" = none ∧
    CleanupExpiredTokens [("a", ⟨"chef", 1, 0, 10⟩), ("b", ⟨"admin", 2, 0, 200⟩)]
      99 (fun t => if t = "a" then some ⟨"chef", 1, 0, 10⟩
                   else if t = "b" then some ⟨"admin", 2, 0, 200⟩ else none)
      "b" = some ⟨"admin", 2, 0, 200⟩ := by
  have henum : ∀ t i,
      (fun t => if t = "a" then some (⟨"chef", 1, 0, 10⟩ : TokenInfo)
                else if t = "b" then some ⟨"admin", 2, 0, 200⟩ else none) t = some i ↔
      (t, i) ∈ [(("a" : String), (⟨"chef", 1, 0, 10⟩ : TokenInfo)),
                ("b", ⟨"admin", 2, 0, 200⟩)] := by
    intro t i
    by_cases ha : t = "a"
    · subst ha; simp [eq_comm]
    · by_cases hb : t = "b"
      · subst hb; simp [ha, eq_comm]
      · simp [ha, hb]
  exact ⟨(c8_cleanup _ _ 99 henum "a").1 ⟨"chef", 1, 0, 10⟩ (by simp) (by decide),
         (c8_cleanup _ _ 99 henum "b").2.1 ⟨"admin", 2, 0, 200⟩ (by simp) (by decide)⟩

/-- The in-memory update step of `JSONStorage.SaveRecipe`
(`storage/json_storage.go` lines 82-95): replace the first stored recipe
whose `ID` matches, otherwise append the recipe at the end. -/
def upsertRecipe : List Recipe → Recipe → List Recipe
  | [], r => [r]
  | x :: xs, r => if x.ID = r.ID then r :: xs else x :: upsertRecipe xs r

/-- The in-memory removal step of `JSONStorage.DeleteRecipe`
(`storage/json_storage.go` lines 110-118): drop the first stored recipe
whose `ID` matches. -/
def deleteFirstByID : List Recipe → String → List Recipe
  | [], _ => []
  | x :: xs, rid => if x.ID = rid then xs else x :: deleteFirstByID xs rid

/-- The lookup loop shared by `JSONStorage.GetRecipeByID`
(`storage/json_storage.go` lines 63-67) and the existence checks in
`PostgresStorage.SaveRecipe` and the update handler: first recipe whose
`ID` matches. -/
def findByID : List Recipe → String → Option Recipe
  | [], _ => none
  | x :: xs, rid => if x.ID = rid then some x else findByID xs rid

/-- The ordering key of the relational queries' `ORDER BY created_at DESC`:
`a` comes no later than `b` when `a` was created no earlier. -/
def newerFirst (a b : Recipe) : Prop := b.CreatedAt ≤ a.CreatedAt

instance : DecidableRel newerFirst := fun a b => Int.decLe b.CreatedAt a.CreatedAt

instance : IsTotal Recipe newerFirst :=
  ⟨fun a b => Int.le_total b.CreatedAt a.CreatedAt⟩

instance : IsTrans Recipe newerFirst :=
  ⟨fun _ _ _ hab hbc => le_trans hbc hab⟩

/-- `ORDER BY created_at DESC`: the rows sorted newest-created first
(stable sort; SQL leaves the order of creation-time ties unspecified, a
stable sort is one admissible determination). -/
def orderByCreatedAtDesc (l : List Recipe) : List Recipe :=
  List.insertionSort newerFirst l

/-- `JSONStorage.GetAllRecipes` (`storage/json_storage.go` lines 39-54) on
a readable file: returns the parsed array exactly as stored in the file,
in file order. -/
def GetAllRecipesJSON (recipes : List Recipe) : List Recipe := recipes

/-- `PostgresStorage.GetAllRecipes` (`storage/postgres_storage.go` lines
26-59): `SELECT ... FROM recipes ORDER BY created_at DESC` over the table's
rows. -/
def GetAllRecipesPG (tbl : List Recipe) : List Recipe :=
  orderByCreatedAtDesc tbl

/-- `PostgresStorage.createRecipe` (`storage/postgres_storage.go` lines
105-128): generates an id if none was supplied, inserts the row, and the
database stamps `created_at` and `updated_at` with the same statement
timestamp (`DEFAULT CURRENT_TIMESTAMP` on both columns). -/
def createRecipePG (tbl : List Recipe) (recipe : Recipe) (newId : String)
    (userID : Option Int) (now : Int) : List Recipe :=
  let rid := if recipe.ID = "" then newId else recipe.ID
  tbl ++ [{ recipe with ID := rid, CreatedAt := now, UpdatedAt := now, CreatedBy := userID, UpdatedBy := userID }]

/-- `PostgresStorage.updateRecipe` (`storage/postgres_storage.go` lines
131-151): `UPDATE recipes SET name = ..., updated_by = $8, updated_at =
CURRENT_TIMESTAMP WHERE id = $1`; `created_at` and `created_by` are not
touched. -/
def updateRecipePG (tbl : List Recipe) (recipe : Recipe) (userID : Option Int)
    (now : Int) : List Recipe :=
  tbl.map (fun row =>
    if row.ID = recipe.ID then
      { recipe with ID := row.ID, CreatedAt := row.CreatedAt, CreatedBy := row.CreatedBy, UpdatedBy := userID, UpdatedAt := now }
    else row)

/-- `PostgresStorage.SaveRecipe` (`storage/postgres_storage.go` lines
88-102): update when a row with the id exists, insert otherwise. -/
def SaveRecipePG (tbl : List Recipe) (recipe : Recipe) (newId : String)
    (userID : Option Int) (now : Int) : List Recipe :=
  match findByID tbl recipe.ID with
  | some _ => updateRecipePG tbl recipe userID now
  | none => createRecipePG tbl recipe newId userID now

/-- Outcome of the `os.WriteFile` call in `saveRecipes`: Go documents that
a failure mid-operation can leave the file in a partially written state —
the file was opened with `O_TRUNC`, so on failure it holds the prefix of
the data written so far. -/
inductive FileWriteOutcome where
  | ok : FileWriteOutcome
  | failAfter (written : Nat) (msg : String) : FileWriteOutcome
deriving DecidableEq, Repr

/-- Outcome of the `os.ReadFile` call in `getAllRecipesUnsafe`. -/
inductive FileReadOutcome where
  | ok : FileReadOutcome
  | ioError (msg : String) : FileReadOutcome
deriving DecidableEq, Repr

/-- String escaping inside a JSON string literal (backslash and quote). -/
def jsonEscape (s : String) : String :=
  String.mk (s.data.foldr
    (fun c acc =>
      if c = '\\' then '\\' :: '\\' :: acc
      else if c = '"' then '\\' :: '"' :: acc
      else c :: acc) [])

/-- A JSON string literal. -/
def jsonStr (s : String) : String := "\"" ++ jsonEscape s ++ "\""

/-- A JSON array of string literals. -/
def jsonStrList (l : List String) : String :=
  "[" ++ String.intercalate ", " (l.map jsonStr) ++ "]"

/-- The serialized form of one recipe, modelling `json.MarshalIndent`'s
output for `models.Recipe` (the whitespace layout of `MarshalIndent` is
abstracted; no theorem depends on the exact bytes, only on the file being
written as one serialized document). -/
def marshalRecipe (r : Recipe) : String :=
  "\x7b \"id\": " ++ jsonStr r.ID ++
  ", \"name\": " ++ jsonStr r.Name ++
  ", \"ingredients\": " ++ jsonStrList r.Ingredients ++
  ", \"instructions\": " ++ jsonStr r.Instructions ++
  ", \"cooking_time\": " ++ jsonStr r.CookingTime ++
  ", \"servings\": " ++ toString r.Servings ++
  ", \"category\": " ++ jsonStr r.Category ++
  ", \"created_at\": " ++ toString r.CreatedAt ++
  ", \"updated_at\": " ++ toString r.UpdatedAt ++ " \x7d"

/-- The serialized recipe collection (`json.MarshalIndent(recipes, ...)`). -/
def marshalRecipes (recipes : List Recipe) : String :=
  "[" ++ String.intercalate ", " (recipes.map marshalRecipe) ++ "]"

/-- `JSONStorage.saveRecipes` (`storage/json_storage.go` lines 143-154):
marshal the collection and `os.WriteFile` it over the previous content.
Returns the error (if any) and the resulting file content: on success the
full new document, on a failed write the truncated prefix actually written. -/
def saveRecipes (recipes : List Recipe) (w : FileWriteOutcome) :
    Option String × String :=
  let data := marshalRecipes recipes
  match w with
  | .ok => (none, data)
  | .failAfter k msg => (some ("failed to write recipes file: " ++ msg), data.take k)

/-- `JSONStorage.SaveRecipe` (`storage/json_storage.go` lines 73-98) at the
file level: `file` is the current content, `recipes` its parse (the result
of `getAllRecipesUnsafe` when the read succeeds).  Returns the error (if
any) and the file content afterwards. -/
def SaveRecipeFile (file : String) (recipes : List Recipe) (recipe : Recipe)
    (rd : FileReadOutcome) (w : FileWriteOutcome) : Option String × String :=
  match rd with
  | .ioError msg => (some ("failed to read recipes file: " ++ msg), file)
  | .ok => saveRecipes (upsertRecipe recipes recipe) w

/-- The distinct outcomes `DeleteRecipe` can produce in either backend:
success, the id-specific "recipe with ID ... not found" error, and the
storage-level errors (read/write/SQL failures), which carry different
messages from the not-found one. -/
inductive DeleteResult where
  | ok (recipes : List Recipe) : DeleteResult
  | notFound (rid : String) : DeleteResult
  | storageError (msg : String) : DeleteResult
deriving DecidableEq, Repr

/-- `JSONStorage.DeleteRecipe` (`storage/json_storage.go` lines 101-125):
read the collection (may fail), search for the id, report not-found if
absent, otherwise rewrite the file without the first matching record. -/
def DeleteRecipeFile (recipes : List Recipe) (rid : String)
    (rd : FileReadOutcome) (w : FileWriteOutcome) : DeleteResult :=
  match rd with
  | .ioError msg => .storageError ("failed to read recipes file: " ++ msg)
  | .ok =>
    match findByID recipes rid with
    | none => .notFound rid
    | some _ =>
      match w with
      | .ok => .ok (deleteFirstByID recipes rid)
      | .failAfter _ msg => .storageError ("failed to write recipes file: " ++ msg)

/-- Outcome of a SQL statement execution (`db.Exec`). -/
inductive ExecOutcome where
  | ok : ExecOutcome
  | execError (msg : String) : ExecOutcome
deriving DecidableEq, Repr

/-- `PostgresStorage.DeleteRecipe` (`storage/postgres_storage.go` lines
154-172): `DELETE FROM recipes WHERE id = $1`; if no row was affected the
id-specific not-found error is returned, otherwise success. -/
def DeleteRecipePG (tbl : List Recipe) (rid : String) (e : ExecOutcome) :
    DeleteResult :=
  match e with
  | .execError msg => .storageError ("failed to delete recipe: " ++ msg)
  | .ok =>
    let remaining := tbl.filter (fun r => !(r.ID == rid))
    if tbl.length - remaining.length = 0 then .notFound rid
    else .ok remaining

/-- The response the recipe handler writes (success envelope or error
envelope with its HTTP status, `handlers/recipe_handler.go`). -/
inductive ApiOutcome where
  | created (r : Recipe) : ApiOutcome
  | okUpdated (r : Recipe) : ApiOutcome
  | badRequest (msg : String) : ApiOutcome
  | notFoundResp (msg : String) : ApiOutcome
deriving DecidableEq, Repr

/-- `RecipeHandler.createRecipe` (`handlers/recipe_handler.go` lines
128-159) after a successful JSON decode: validate, then stamp
`ID = uuid.New()`, `CreatedAt = time.Now()`, `UpdatedAt = time.Now()`
(two separate clock readings, `now1` and `now2`), then save.  Returns the
stored collection afterwards and the response.  (A failing save is
modelled separately by `SaveRecipeFile`.) -/
def handlerCreateRecipe (recipes : List Recipe) (recipe : Recipe)
    (newId : String) (now1 now2 : Int) : List Recipe × ApiOutcome :=
  match recipe.Validate with
  | some msg => (recipes, .badRequest ("Validation error: " ++ msg))
  | none =>
    let r := { recipe with ID := newId, CreatedAt := now1, UpdatedAt := now2 }
    (upsertRecipe recipes r, .created r)

/-- `RecipeHandler.updateRecipe` (`handlers/recipe_handler.go` lines
162-199) after a successful JSON decode: look up the existing record (404
if absent), validate, keep the original creation time, stamp
`UpdatedAt = time.Now()`, then save. -/
def handlerUpdateRecipe (recipes : List Recipe) (recipe : Recipe)
    (now : Int) : List Recipe × ApiOutcome :=
  match findByID recipes recipe.ID with
  | none => (recipes, .notFoundResp "Recipe not found")
  | some existingRecipe =>
    match recipe.Validate with
    | some msg => (recipes, .badRequest ("Validation error: " ++ msg))
    | none =>
      let r := { recipe with CreatedAt := existingRecipe.CreatedAt, UpdatedAt := now }
      (upsertRecipe recipes r, .okUpdated r)

/-- All suffixes of a character list, longest first (including the list
itself and the empty suffix). -/
def allSuffixes : List Char → List (List Char)
  | [] => [[]]
  | c :: t => (c :: t) :: allSuffixes t

/-- SQL `LIKE`/`ILIKE` pattern matching (the semantics of the predicate
`name ILIKE $1` in `PostgresStorage.SearchRecipes`): `%` matches any
sequence, `_` any single character, backslash escapes the next pattern
character, and — this being `ILIKE` — literal characters compare
case-insensitively. -/
def likeMatch : List Char → List Char → Bool
  | [], t => t.isEmpty
  | a :: p, t =>
    if a = '\\' then
      match p, t with
      | e :: p2, c :: t2 => (e.toLower == c.toLower) && likeMatch p2 t2
      | _, _ => false
    else if a = '%' then (allSuffixes t).any (fun t2 => likeMatch p t2)
    else
      match t with
      | [] => false
      | c :: t2 => (a == '_' || a.toLower == c.toLower) && likeMatch p t2

/-- `text ILIKE pattern`. -/
def ilike (text pattern : String) : Bool := likeMatch pattern.data text.data

/-- The pattern `searchPattern := "%" + searchTerm + "%"` built by
`PostgresStorage.SearchRecipes` (`storage/postgres_storage.go` line 217). -/
def searchPattern (term : String) : String := "%" ++ term ++ "%"

/-- `PostgresStorage.SearchRecipes` (`storage/postgres_storage.go` lines
208-239): `WHERE name ILIKE $1 OR $2 = ANY(ingredients) ORDER BY
created_at DESC` with `$1 = '%' + term + '%'` and `$2 = term`. -/
def SearchRecipesPG (tbl : List Recipe) (term : String) : List Recipe :=
  orderByCreatedAtDesc
    (tbl.filter (fun r => ilike r.Name (searchPattern term) || r.Ingredients.contains term))

/-- `p` begins `t` (character-by-character equality). -/
def leadsWith : List Char → List Char → Bool
  | [], _ => true
  | _ :: _, [] => false
  | a :: p, c :: t => a == c && leadsWith p t

/-- `p` occurs contiguously somewhere inside `t`. -/
def occursIn (p : List Char) : List Char → Bool
  | [] => leadsWith p []
  | c :: t => leadsWith p (c :: t) || occursIn p t

/-- Modelled from the spec: "matches recipes whose name contains `term` as
a case-insensitive substring" — `sub` occurs in `s` after lower-casing
both. -/
def containsSubstrCI (s sub : String) : Bool :=
  occursIn (sub.data.map Char.toLower) (s.data.map Char.toLower)

/-- Modelled from the spec (refinement comparison for Search): recipes
whose name contains the term as a case-insensitive substring OR whose
ingredient list contains the term as an exact element, in List's order
(newest-created first). -/
def SearchRecipesSpec (tbl : List Recipe) (term : String) : List Recipe :=
  orderByCreatedAtDesc
    (tbl.filter (fun r => containsSubstrCI r.Name term || r.Ingredients.contains term))

/-- Concrete recipes used by witnesses and counterexamples. -/
def recA : Recipe :=
  { ID := "id-a", Name := "Soup", Ingredients := ["water", "salt"],
    Instructions := "boil", CookingTime := "10 minutes", Servings := 2,
    Category := "starter", CreatedAt := 0, UpdatedAt := 0 }

def recB : Recipe :=
  { ID := "id-b", Name := "Stew", Ingredients := ["beef"],
    Instructions := "simmer", CookingTime := "2 hours", Servings := 4,
    Category := "main", CreatedAt := 1, UpdatedAt := 1 }

def recC : Recipe :=
  { ID := "id-c", Name := "Cake", Ingredients := ["flour"],
    Instructions := "bake", CookingTime := "1 hour", Servings := 8,
    Category := "dessert", CreatedAt := 2, UpdatedAt := 2 }

/-- C10: on the file backend, saving a recipe whose id is already present
replaces exactly the first matching record in place — the stored sequence
keeps its shape `l₁ ++ _ :: l₂` with every other record unchanged — and the
collection's length is unchanged. -/
theorem c10_upsert_replaces_in_place (l₁ l₂ : List Recipe) (x r : Recipe)
    (h₁ : ∀ y ∈ l₁, y.ID ≠ r.ID) (hx : x.ID = r.ID) :
    upsertRecipe (l₁ ++ x :: l₂) r = l₁ ++ r :: l₂ ∧
    (upsertRecipe (l₁ ++ x :: l₂) r).length = (l₁ ++ x :: l₂).length := by
  have key : upsertRecipe (l₁ ++ x :: l₂) r = l₁ ++ r :: l₂ := by
    induction l₁ with
    | nil => simp [upsertRecipe, hx]
    | cons y ys ih =>
      have hy : y.ID ≠ r.ID := h₁ y (List.mem_cons_self _ _)
      simp only [List.cons_append, upsertRecipe, hy, if_false, List.append_eq]
      rw [ih (fun z hz => h₁ z (List.mem_cons_of_mem _ hz))]
  refine ⟨key, ?_⟩
  rw [key]
  simp

/-- C10 witnessed: updating the middle record of a three-record store
replaces it in place and keeps the length at 3. -/
theorem c10_witness :
    upsertRecipe ([recA] ++ recB :: [recC]) { recB with Servings := 9 } =
      [recA] ++ { recB with Servings := 9 } :: [recC] ∧
    (upsertRecipe ([recA] ++ recB :: [recC]) { recB with Servings := 9 }).length =
      ([recA] ++ recB :: [recC]).length :=
  c10_upsert_replaces_in_place [recA] [recC] recB { recB with Servings := 9 }
    (by decide) (by decide)

/-- C3 (counterexample): after creating `recA` (instant 0) and then `recB`
(instant 1), the file backend lists them oldest-created first while the
relational backend lists them newest-created first, so List is not
"newest-created first ... identically for both backends". -/
theorem c3_counterexample :
    GetAllRecipesJSON (upsertRecipe (upsertRecipe [] recA) recB) = [recA, recB] ∧
    GetAllRecipesPG [recA, recB] = [recB, recA] ∧
    ([recA, recB] : List Recipe) ≠ [recB, recA] := by
  decide

/-- C3 (amended): the relational backend's List returns a permutation of
the stored recipes sorted newest-created first, while the file backend's
List returns the stored sequence in file order (appends go to the end, so
records created in increasing time order come back oldest first). -/
theorem c3_amended :
    (∀ tbl : List Recipe, List.Sorted newerFirst (GetAllRecipesPG tbl) ∧
      List.Perm (GetAllRecipesPG tbl) tbl) ∧
    (∀ recipes : List Recipe, GetAllRecipesJSON recipes = recipes) :=
  ⟨fun tbl => ⟨List.sorted_insertionSort newerFirst tbl,
               List.perm_insertionSort newerFirst tbl⟩,
   fun _ => rfl⟩

/-- Unfolding: a `%` wildcard tries every suffix of the text. -/
theorem likeMatch_pct (p t : List Char) :
    likeMatch ('%' :: p) t = (allSuffixes t).any (fun t2 => likeMatch p t2) := by
  cases p <;> cases t <;> simp [likeMatch, allSuffixes]

/-- Unfolding: a non-wildcard pattern head needs a text character. -/
theorem likeMatch_lit_nil (a : Char) (p : List Char) (h1 : a ≠ '\\')
    (h2 : a ≠ '%') : likeMatch (a :: p) [] = false := by
  cases p <;> simp [likeMatch, h1, h2]

/-- Unfolding: a non-wildcard pattern head compares (case-folded) against
the next text character, unless it is the single-character wildcard. -/
theorem likeMatch_lit_cons (a : Char) (p : List Char) (c : Char)
    (t : List Char) (h1 : a ≠ '\\') (h2 : a ≠ '%') :
    likeMatch (a :: p) (c :: t) =
      ((a == '_' || a.toLower == c.toLower) && likeMatch p t) := by
  cases p <;> simp [likeMatch, h1, h2]

/-- The empty suffix is always enumerated. -/
theorem nil_mem_allSuffixes (t : List Char) : [] ∈ allSuffixes t := by
  induction t with
  | nil => exact List.mem_singleton.mpr rfl
  | cons c t ih => exact List.mem_cons_of_mem _ ih

/-- A wildcard-free pattern followed by a trailing `%` matches a text iff
the case-folded pattern begins the case-folded text. -/
theorem likeMatch_closedTail (p : List Char)
    (hp : ∀ c ∈ p, c ≠ '%' ∧ c ≠ '_' ∧ c ≠ '\\') :
    ∀ t : List Char, likeMatch (p ++ ['%']) t =
      leadsWith (p.map Char.toLower) (t.map Char.toLower) := by
  induction p with
  | nil =>
    intro t
    have : likeMatch (('%' : Char) :: []) t = true := by
      rw [likeMatch_pct]
      exact List.any_eq_true.mpr ⟨[], nil_mem_allSuffixes t, rfl⟩
    simpa [leadsWith] using this
  | cons a p ih =>
    intro t
    obtain ⟨h2, h3, h1⟩ := hp a (List.mem_cons_self _ _)
    have hp' : ∀ c ∈ p, c ≠ '%' ∧ c ≠ '_' ∧ c ≠ '\\' :=
      fun c hc => hp c (List.mem_cons_of_mem _ hc)
    cases t with
    | nil =>
      rw [List.cons_append, likeMatch_lit_nil a (p ++ ['%']) h1 h2]
      rfl
    | cons c t2 =>
      rw [List.cons_append, likeMatch_lit_cons a (p ++ ['%']) c t2 h1 h2]
      have ha : (a == '_') = false := beq_eq_false_iff_ne.mpr h3
      rw [ha, Bool.false_or, ih hp' t2]
      rfl

/-- `occursIn` is the "some suffix begins with the pattern" search. -/
theorem occursIn_eq_any (p t : List Char) :
    occursIn p t = (allSuffixes t).any (fun s => leadsWith p s) := by
  induction t with
  | nil => simp [occursIn, allSuffixes]
  | cons c t ih =>
    simp only [occursIn, allSuffixes, List.any_cons]
    rw [ih]

/-- Mapping a function over the text maps it over every suffix. -/
theorem allSuffixes_map (f : Char → Char) (t : List Char) :
    allSuffixes (t.map f) = (allSuffixes t).map (List.map f) := by
  induction t with
  | nil => rfl
  | cons c t ih =>
    show (f c :: t.map f) :: allSuffixes (t.map f) = _
    rw [ih]
    rfl

/-- The `ILIKE '%term%'` predicate of `SearchRecipes` agrees with the
spec's case-insensitive-substring reading whenever the search term
contains no `LIKE` metacharacter (`%`, `_`, `\`). -/
theorem ilike_eq_containsSubstrCI (term name : String)
    (h : ∀ c ∈ term.data, c ≠ '%' ∧ c ≠ '_' ∧ c ≠ '\\') :
    ilike name (searchPattern term) = containsSubstrCI name term := by
  have hdata : (searchPattern term).data = '%' :: (term.data ++ ['%']) := by
    have h1 : ("%" : String).data = ['%'] := rfl
    simp [searchPattern, String.data_append, h1]
  show likeMatch (searchPattern term).data name.data = _
  rw [hdata, likeMatch_pct, containsSubstrCI, occursIn_eq_any,
    allSuffixes_map, List.any_map]
  have hfun : (fun t2 => likeMatch (term.data ++ ['%']) t2) =
      ((fun s => leadsWith (term.data.map Char.toLower) s) ∘ List.map Char.toLower) := by
    funext t2
    exact likeMatch_closedTail term.data h t2
  rw [hfun]

/-- A recipe named "ab" with no matching ingredient, used to exhibit the
`LIKE`-metacharacter divergence. -/
def recWild : Recipe :=
  { ID := "id-w", Name := "ab", Ingredients := ["flour"],
    Instructions := "mix", CookingTime := "5 minutes", Servings := 2,
    Category := "demo", CreatedAt := 0, UpdatedAt := 0 }

/-- C4 (counterexample): Search("_") returns the recipe named "ab" even
though "ab" does not contain "_" as a substring and no ingredient equals
"_" — the unescaped term is interpolated into the `ILIKE` pattern, where
`_` is a single-character wildcard.  So Search does not return "exactly
the recipes whose name contains term as a case-insensitive substring or
whose ingredient list contains term". -/
theorem c4_counterexample :
    SearchRecipesPG [recWild] "_" = [recWild] ∧
    containsSubstrCI recWild.Name "_" = false ∧
    recWild.Ingredients.contains "_" = false ∧
    SearchRecipesSpec [recWild] "_" = [] := by
  decide

/-- C4 (amended): for every store and every term containing no `LIKE`
metacharacter (`%`, `_`, `\`), Search returns exactly the recipes whose
name contains the term as a case-insensitive substring or whose ingredient
list contains the term as an exact element, in List's order. -/
theorem c4_amended (tbl : List Recipe) (term : String)
    (h : ∀ c ∈ term.data, c ≠ '%' ∧ c ≠ '_' ∧ c ≠ '\\') :
    SearchRecipesPG tbl term = SearchRecipesSpec tbl term := by
  unfold SearchRecipesPG SearchRecipesSpec
  congr 1
  apply List.filter_congr
  intro r _
  rw [ilike_eq_containsSubstrCI term r.Name h]

/-- C4 amended, witnessed on the spec's own example: Search("choc") over a
store with a recipe named "Chocolate Cake" and one whose only match is the
ingredient "chocolate chips" agrees with the spec-side search (both return
both recipes); a term matching nothing returns the empty sequence. -/
theorem c4_witness :
    SearchRecipesPG [{ recA with ID := "id-cc", Name := "Chocolate Cake", CreatedAt := 5 }, { recB with ID := "id-ch", Name := "Cookies", Ingredients := ["chocolate chips"], CreatedAt := 4 }] "choc" =
    SearchRecipesSpec [{ recA with ID := "id-cc", Name := "Chocolate Cake", CreatedAt := 5 }, { recB with ID := "id-ch", Name := "Cookies", Ingredients := ["chocolate chips"], CreatedAt := 4 }] "choc" ∧
    SearchRecipesPG [recA, recB] "xyz-none" = SearchRecipesSpec [recA, recB] "xyz-none" :=
  ⟨c4_amended _ "choc" (by decide), c4_amended [recA, recB] "xyz-none" (by decide)⟩

/-- C5 (counterexample): the create handler stamps `CreatedAt` and
`UpdatedAt` with two separate `time.Now()` readings; when the clock
advances between them (here 0 → 1) the freshly inserted record's creation
timestamp differs from its modification timestamp, contradicting
"inserts a record whose creation timestamp equals its modification
timestamp". -/
theorem c5_counterexample :
    (handlerCreateRecipe [] { recA with ID := "" } "id-1" 0 1).1 =
      [{ recA with ID := "id-1", CreatedAt := 0, UpdatedAt := 1 }] ∧
    ({ recA with ID := "id-1", CreatedAt := 0, UpdatedAt := 1 } : Recipe).CreatedAt ≠
      ({ recA with ID := "id-1", CreatedAt := 0, UpdatedAt := 1 } : Recipe).UpdatedAt := by
  decide

/-- C5 (amended): inserting a fresh id stamps creation and modification
together — equal on the relational backend, where one INSERT stamps both
columns with the statement timestamp, and equal on the file backend exactly
when the handler's two clock readings coincide; updating an existing id
changes the mutable fields, leaves the creation timestamp unchanged, and
sets the modification timestamp to the current instant, strictly later
whenever the clock has strictly advanced. -/
theorem c5_amended :
    (∀ (recipes : List Recipe) (r : Recipe) (newId : String) (n : Int),
      r.Validate = none →
      handlerCreateRecipe recipes r newId n n =
        (upsertRecipe recipes { r with ID := newId, CreatedAt := n, UpdatedAt := n },
         .created { r with ID := newId, CreatedAt := n, UpdatedAt := n })) ∧
    (∀ (tbl : List Recipe) (r : Recipe) (newId : String) (uid : Option Int) (now : Int),
      findByID tbl r.ID = none →
      SaveRecipePG tbl r newId uid now =
        tbl ++ [{ r with ID := (if r.ID = "" then newId else r.ID), CreatedAt := now, UpdatedAt := now, CreatedBy := uid, UpdatedBy := uid }]) ∧
    (∀ (recipes : List Recipe) (r ex : Recipe) (now : Int),
      findByID recipes r.ID = some ex → r.Validate = none →
      handlerUpdateRecipe recipes r now =
        (upsertRecipe recipes { r with CreatedAt := ex.CreatedAt, UpdatedAt := now },
         .okUpdated { r with CreatedAt := ex.CreatedAt, UpdatedAt := now }) ∧
      (ex.UpdatedAt < now →
        ex.UpdatedAt < ({ r with CreatedAt := ex.CreatedAt, UpdatedAt := now } : Recipe).UpdatedAt)) ∧
    (∀ (tbl : List Recipe) (r : Recipe) (newId : String) (uid : Option Int) (now : Int) (ex : Recipe),
      findByID tbl r.ID = some ex →
      SaveRecipePG tbl r newId uid now = updateRecipePG tbl r uid now) ∧
    (∀ (tbl : List Recipe) (r row : Recipe) (uid : Option Int) (now : Int),
      row ∈ tbl → row.ID = r.ID →
      { r with ID := row.ID, CreatedAt := row.CreatedAt, CreatedBy := row.CreatedBy, UpdatedBy := uid, UpdatedAt := now } ∈ updateRecipePG tbl r uid now) := by
  refine ⟨?_, ?_, ?_, ?_, ?_⟩
  · intro recipes r newId n hv
    simp [handlerCreateRecipe, hv]
  · intro tbl r newId uid now hfind
    simp [SaveRecipePG, hfind, createRecipePG]
  · intro recipes r ex now hfind hv
    refine ⟨?_, fun h => h⟩
    simp [handlerUpdateRecipe, hfind, hv]
  · intro tbl r newId uid now ex hfind
    simp [SaveRecipePG, hfind]
  · intro tbl r row uid now hrow hid
    exact List.mem_map.mpr ⟨row, hrow, by simp [hid]⟩

/-- C5 amended, witnessed: creating with coinciding clock readings yields
creation = modification; a later update of the same record preserves the
creation instant and strictly advances the modification instant. -/
theorem c5_witness :
    handlerCreateRecipe [] { recA with ID := "" } "id-1" 3 3 =
      (upsertRecipe [] { recA with ID := "id-1", CreatedAt := 3, UpdatedAt := 3 },
       .created { recA with ID := "id-1", CreatedAt := 3, UpdatedAt := 3 }) ∧
    (handlerUpdateRecipe [recA] { recA with Servings := 9, UpdatedAt := 0 } 7 =
      (upsertRecipe [recA] { recA with Servings := 9, CreatedAt := 0, UpdatedAt := 7 },
       .okUpdated { recA with Servings := 9, CreatedAt := 0, UpdatedAt := 7 }) ∧
     (recA.UpdatedAt < 7 →
       recA.UpdatedAt < ({ recA with Servings := 9, CreatedAt := recA.CreatedAt, UpdatedAt := 7 } : Recipe).UpdatedAt)) :=
  ⟨c5_amended.1 [] { recA with ID := "" } "id-1" 3 (by decide),
   c5_amended.2.2.1 [recA] { recA with Servings := 9, UpdatedAt := 0 } recA 7 (by decide) (by decide)⟩

/-- C6 (counterexample): `saveRecipes` writes with `os.WriteFile`, which
truncates and then writes; a write that fails after 0 bytes returns an
error yet leaves the file empty — the previously persisted collection is
gone, so a failed Save does not leave the prior state intact. -/
theorem c6_counterexample :
    (SaveRecipeFile (marshalRecipes [recA]) [recA] recB .ok (.failAfter 0 "disk full")).1 =
      some "failed to write recipes file: disk full" ∧
    (SaveRecipeFile (marshalRecipes [recA]) [recA] recB .ok (.failAfter 0 "disk full")).2 ≠
      marshalRecipes [recA] := by
  decide

/-- C6 (amended): a successful Save fully commits the new serialized
collection; a failed Save either leaves the file unchanged (the failure
occurred while reading, before the write) or leaves the file holding a
prefix of the new serialized collection (the write itself failed after
truncation) — the write is not atomic. -/
theorem c6_amended (file : String) (recipes : List Recipe) (r : Recipe)
    (rd : FileReadOutcome) (w : FileWriteOutcome) :
    ((SaveRecipeFile file recipes r rd w).1 = none →
      (SaveRecipeFile file recipes r rd w).2 = marshalRecipes (upsertRecipe recipes r)) ∧
    ((SaveRecipeFile file recipes r rd w).1 ≠ none →
      (SaveRecipeFile file recipes r rd w).2 = file ∨
      ∃ n : Nat, (SaveRecipeFile file recipes r rd w).2 =
        (marshalRecipes (upsertRecipe recipes r)).take n) := by
  cases rd with
  | ioError msg => exact ⟨fun h => by simp [SaveRecipeFile] at h, fun _ => Or.inl rfl⟩
  | ok =>
    cases w with
    | ok => exact ⟨fun _ => rfl, fun h => absurd rfl h⟩
    | failAfter k msg => exact ⟨fun h => by simp [SaveRecipeFile, saveRecipes] at h, fun _ => Or.inr ⟨k, rfl⟩⟩

/-- C6 amended, witnessed: a successful save commits the new collection in
full; a save whose read fails leaves the file unchanged. -/
theorem c6_witness :
    (SaveRecipeFile (marshalRecipes [recA]) [recA] recB .ok .ok).2 =
      marshalRecipes (upsertRecipe [recA] recB) ∧
    ((SaveRecipeFile (marshalRecipes [recA]) [recA] recB (.ioError "eof") .ok).2 =
      marshalRecipes [recA] ∨
     ∃ n : Nat, (SaveRecipeFile (marshalRecipes [recA]) [recA] recB (.ioError "eof") .ok).2 =
      (marshalRecipes (upsertRecipe [recA] recB)).take n) :=
  ⟨(c6_amended (marshalRecipes [recA]) [recA] recB .ok .ok).1 rfl,
   (c6_amended (marshalRecipes [recA]) [recA] recB (.ioError "eof") .ok).2 (by decide)⟩

/-- C7: on both backends a Delete of a present id succeeds and removes the
record, a Delete of an absent id reports the id-specific not-found
outcome, and the not-found outcome is distinguishable both from success
and from the storage-failure outcomes. -/
theorem c7_delete :
    (∀ (recipes : List Recipe) (rid : String) (r : Recipe),
      findByID recipes rid = some r →
      DeleteRecipeFile recipes rid .ok .ok = .ok (deleteFirstByID recipes rid)) ∧
    (∀ (recipes : List Recipe) (rid : String),
      findByID recipes rid = none →
      ∀ w, DeleteRecipeFile recipes rid .ok w = .notFound rid) ∧
    (∀ (tbl : List Recipe) (rid : String) (r : Recipe), r ∈ tbl → r.ID = rid →
      DeleteRecipePG tbl rid .ok = .ok (tbl.filter (fun q => !(q.ID == rid)))) ∧
    (∀ (tbl : List Recipe) (rid : String) (q : Recipe),
      q ∈ tbl.filter (fun q => !(q.ID == rid)) → q.ID ≠ rid) ∧
    (∀ (tbl : List Recipe) (rid : String),
      (∀ r ∈ tbl, r.ID ≠ rid) → DeleteRecipePG tbl rid .ok = .notFound rid) ∧
    (∀ (rid : String) (recipes : List Recipe) (msg : String),
      DeleteResult.notFound rid ≠ .ok recipes ∧
      DeleteResult.notFound rid ≠ .storageError msg) := by
  refine ⟨?_, ?_, ?_, ?_, ?_, ?_⟩
  · intro recipes rid r hfind
    simp [DeleteRecipeFile, hfind]
  · intro recipes rid hfind w
    simp [DeleteRecipeFile, hfind]
  · intro tbl rid r hr hid
    have hlt : (tbl.filter (fun q => !(q.ID == rid))).length < tbl.length := by
      apply List.length_filter_lt_length_iff_exists.mpr
      exact ⟨r, hr, by simp [hid]⟩
    simp only [DeleteRecipePG]
    rw [if_neg (by omega)]
  · intro tbl rid q hq
    have := List.of_mem_filter hq
    simpa using this
  · intro tbl rid hall
    have heq : tbl.filter (fun q => !(q.ID == rid)) = tbl := by
      apply List.filter_eq_self.mpr
      intro a ha
      simpa using hall a ha
    simp [DeleteRecipePG, heq]
  · intro rid recipes msg
    exact ⟨fun h => DeleteResult.noConfusion h, fun h => DeleteResult.noConfusion h⟩

/-- C7 witnessed: deleting "id-a" from a store holding it succeeds and
removes it; deleting it from an empty store reports not-found, which
differs from every success and storage-failure value. -/
theorem c7_witness :
    DeleteRecipeFile [recA] "id-a" .ok .ok = .ok (deleteFirstByID [recA] "id-a") ∧
    DeleteRecipeFile [] "id-a" .ok .ok = .notFound "id-a" ∧
    DeleteRecipePG [recA] "id-a" .ok = .ok ([recA].filter (fun q => !(q.ID == "id-a"))) ∧
    DeleteRecipePG [] "id-a" .ok = .notFound "id-a" ∧
    DeleteResult.notFound "id-a" ≠ .ok [] ∧
    DeleteResult.notFound "id-a" ≠ .storageError "failed to read recipes file: eof" :=
  ⟨c7_delete.1 [recA] "id-a" recA (by decide),
   c7_delete.2.1 [] "id-a" (by decide) .ok,
   c7_delete.2.2.1 [recA] "id-a" recA (by decide) (by decide),
   c7_delete.2.2.2.2.1 [] "id-a" (by intro r hr; cases hr),
   (c7_delete.2.2.2.2.2 "id-a" [] "failed to read recipes file: eof").1,
   (c7_delete.2.2.2.2.2 "id-a" [] "failed to read recipes file: eof").2⟩

/-- C9: validation accepts a recipe exactly when none of the malformed
conditions hold — empty name, empty ingredient list, empty instructions,
empty cooking-time, non-positive serving count, empty category — and the
create handler rejects a validation failure before touching storage,
returning the collection unchanged with a 400 response. -/
theorem c9_validation :
    (∀ r : Recipe, r.Validate = none ↔
      (r.Name ≠ "" ∧ r.Ingredients ≠ [] ∧ r.Instructions ≠ "" ∧
       r.CookingTime ≠ "" ∧ 0 < r.Servings ∧ r.Category ≠ "")) ∧
    (∀ (recipes : List Recipe) (r : Recipe) (newId : String) (n1 n2 : Int) (msg : String),
      r.Validate = some msg →
      handlerCreateRecipe recipes r newId n1 n2 =
        (recipes, .badRequest ("Validation error: " ++ msg))) := by
  constructor
  · intro r
    unfold Recipe.Validate
    constructor
    · intro h
      split_ifs at h with h1 h2 h3 h4 h5 h6
      exact ⟨h1, fun hi => h2 (by simp [hi]), h3, h4, by omega, h6⟩
    · intro ⟨h1, h2, h3, h4, h5, h6⟩
      rw [if_neg h1, if_neg (by simpa using h2), if_neg h3, if_neg h4,
        if_neg (by omega), if_neg h6]
  · intro recipes r newId n1 n2 msg hv
    simp [handlerCreateRecipe, hv]

/-- C9 witnessed: a recipe with an empty name is rejected with the 400
response and the stored collection is untouched. -/
theorem c9_witness :
    handlerCreateRecipe [recA] { recB with Name := "" } "id-x" 5 5 =
      ([recA], .badRequest ("Validation error: " ++ "recipe name is required")) :=
  c9_validation.2 [recA] { recB with Name := "" } "id-x" 5 5
    "recipe name is required" (by decide)
